import Mathlib

/-!
Shallow embedding of the original logic of the `DomGrieco/phidata` repository,
with theorems settling the frozen claims about it.

Modelling conventions
- Python floats are modelled as rationals (`ℚ`); the claims are about interval
  membership and averaging, which behave identically.
- Python strings are modelled as `String` / `List Char`; the helpers below
  reproduce `str.find`, `str.split` (with and without separator / maxsplit),
  substring containment (`in`) and `str.strip`.
- Python dicts produced by the code are modelled as ordered association lists
  `List (String × FVal)` so that key presence and insertion order are
  observable.
- External effects (vector-database search, LLM calls, HTTP, filesystem) are
  oracles: the embedded function receives the values the external call would
  return, or a marker that the call raised, and we verify the surrounding
  control flow exactly as written.
-/

/-! ### Python string helpers -/

/-- A single-quote character, written via its code point. -/
def squote : Char := Char.ofNat 39

/-- The string consisting of a single quote. -/
def squoteStr : String := String.mk [squote]

/-- `hay.find(needle)` on character lists: the least index at which `needle`
occurs as a contiguous substring, or `none` (Python returns `-1`). -/
def findSub (hay needle : List Char) : Option Nat :=
  (List.range (hay.length + 1)).find? (fun i => needle.isPrefixOf (hay.drop i))

/-- Python `needle in hay` for strings. -/
def containsSub (needle hay : List Char) : Bool :=
  (findSub hay needle).isSome

/-- Python `needle in hay` on `String`. -/
def containsStr (needle hay : String) : Bool :=
  containsSub needle.data hay.data

/-- `hay.find(c, start)`: least index `≥ start` holding character `c`,
`none` for Python's `-1`. -/
def findCharFrom (hay : List Char) (c : Char) (start : Nat) : Option Nat :=
  (List.range hay.length).find? (fun i => start ≤ i ∧ hay.get? i = some c)

/-- Python slice `s[a:b]`. -/
def pySlice (cs : List Char) (a b : Nat) : List Char :=
  (cs.take b).drop a

/-- `s.split(sep, maxsplit)` for a single-character separator, fuelled by the
number of splits still allowed. Adjacent separators produce empty parts,
exactly as in Python. -/
def splitSepMaxAux (sep : Char) : Nat → List Char → List (List Char)
  | 0, cs => [cs]
  | n + 1, cs =>
    match cs.findIdx? (· = sep) with
    | none => [cs]
    | some i => cs.take i :: splitSepMaxAux sep n (cs.drop (i + 1))

/-- Python `s.split(" ", maxsplit)`. -/
def pySplitSepMax (cs : List Char) (sep : Char) (maxsplit : Nat) : List (List Char) :=
  splitSepMaxAux sep maxsplit cs

/-- `s.split(sep)` for a multi-character separator, with fuel. -/
def splitSubAux (sep : List Char) : Nat → List Char → List (List Char)
  | 0, cs => [cs]
  | n + 1, cs =>
    match findSub cs sep with
    | none => [cs]
    | some i => cs.take i :: splitSubAux sep n (cs.drop (i + sep.length))

/-- Python `s.split(sep)` for a non-empty separator string. -/
def pySplitSub (cs sep : List Char) : List (List Char) :=
  splitSubAux sep (cs.length + 1) cs

/-- Python `s.split()` (no separator): split on whitespace runs, dropping
empty parts. -/
def pySplitWs (s : String) : List String :=
  (s.split (fun c => c.isWhitespace)).filter (fun t => t ≠ "")

/-- Python `s.strip()`. -/
def pyStrip (cs : List Char) : List Char :=
  ((cs.dropWhile Char.isWhitespace).reverse.dropWhile Char.isWhitespace).reverse

/-! ## `knowledge_base_app/app/agents/documentation_agent.py`

`DocumentationAgent.extract_document_info`, `search_with_relevance` and
`query`, embedded over oracle inputs. -/

/-- A value stored in one of the dicts the agent builds: a string, a number,
or Python `None` (the `page` field). -/
inductive FVal where
  | fstr (s : String)
  | fnum (q : ℚ)
  | fnone
  deriving DecidableEq, Repr

/-- The fields `extract_document_info` reads off a dict-shaped search result:
`name`, `file_name`, `section`, `page`, `content`, `score`, each possibly
absent. -/
structure DocDict where
  name : Option String := none
  file_name : Option String := none
  /-- the Python key is called `section`, a reserved word in Lean -/
  sect : Option String := none
  page : Option Nat := none
  content : Option String := none
  score : Option ℚ := none
  deriving DecidableEq, Repr

/-- A raw search result / document as the Python code discriminates it:
a `str`, a `dict`, or any other object (`pobj`), carrying an optional
`score` attribute, an optional `content` attribute, and its `str(...)`
rendering. -/
inductive PyDoc where
  | pstr (s : String)
  | pdict (d : DocDict)
  | pobj (score : Option ℚ) (content : Option String) (repr : String)
  deriving DecidableEq, Repr

/-- An ordered Python dict with string keys. -/
abbrev Info := List (String × FVal)

/-- First-match lookup in an ordered dict. -/
def lookupKey (d : Info) (k : String) : Option FVal :=
  match d with
  | [] => none
  | (k', v) :: rest => if k' = k then some v else lookupKey rest k

/-- Python `d[k] = v`: overwrite in place when the key exists (keeping its
position), otherwise append. -/
def setKey (d : Info) (k : String) (v : FVal) : Info :=
  match d with
  | [] => [(k, v)]
  | (k', v') :: rest => if k' = k then (k, v) :: rest else (k', v') :: setKey rest k v

/-- Python `"relevance_score" in d` etc. -/
def hasKey (d : Info) (k : String) : Bool :=
  (lookupKey d k).isSome

/-- The marker `content='` that the string branch of `extract_document_info`
looks for. -/
def contentMarker : String := "content=" ++ squoteStr

/-- `DocumentationAgent.extract_document_info(doc, score)`
(documentation_agent.py lines 120-167). The body's `try` never actually
raises: every operation modelled here is total, so the `except` branch is
dead and the function always returns a dict. -/
def extract_document_info (doc : PyDoc) (score : Option ℚ) : Info :=
  match doc with
  | .pstr s =>
    let cs := s.data
    match findSub cs contentMarker.data with
    | some i =>
      let contentStart := i + 9
      match findCharFrom cs squote contentStart with
      | some contentEnd =>
        let content := pySlice cs contentStart contentEnd
        let parts := pySplitSepMax content ' ' 2
        [("name", .fstr (String.mk (match parts with | [] => "Unknown Document".data | p :: _ => p))),
         ("section", .fstr (match parts with | _ :: p :: _ => String.mk p | _ => "General")),
         ("content", .fstr (String.mk content)),
         ("relevance_score", .fnum (score.getD 0))]
      | none =>
        [("name", .fstr "Unknown Document"),
         ("section", .fstr "General"),
         ("relevance_score", .fnum (score.getD 0))]
    | none =>
      [("name", .fstr "Unknown Document"),
       ("section", .fstr "General"),
       ("relevance_score", .fnum (score.getD 0))]
  | .pdict d =>
    [("name", .fstr (d.name.getD (d.file_name.getD "Unknown Document"))),
     ("section", .fstr (d.sect.getD "General")),
     ("page", match d.page with | some n => .fnum n | none => .fnone),
     ("content", .fstr (d.content.getD "")),
     ("relevance_score", .fnum (match score with | some s => s | none => d.score.getD 0))]
  | .pobj _ _ r =>
    [("name", .fstr (String.mk (r.data.take 50))),
     ("section", .fstr "General"),
     ("relevance_score", .fnum (score.getD 0))]

/-- The score/content extraction step of `search_with_relevance`
(lines 185-193): a dict yields `get("score")` / `get("content", "")`; any
other object yields its `score` attribute when present and
`getattr(result, "content", "")`; a plain string has neither, so `score`
stays `None`. -/
def getScoreContent : PyDoc → Option ℚ × Option String
  | .pdict d => (d.score, some (d.content.getD ""))
  | .pobj s c _ =>
    match s with
    | some q => (some q, some (c.getD ""))
    | none => (none, none)
  | .pstr _ => (none, none)

/-- The raw vector-similarity score the code reads off a result. -/
def rawScore (r : PyDoc) : Option ℚ := (getScoreContent r).1

/-- Lines 196-199: `normalized_score = float(score)`, then divide by 100 once
when it exceeds 1. -/
def pyNormalize (score : ℚ) : ℚ :=
  if score > 1 then score / 100 else score

/-- Lines 204-209: the term-overlap score `term_matches / len(query_terms)`,
where a term matches when it occurs in the lowercased content. -/
def termScoreOf (query content : String) : ℚ :=
  (((pySplitWs query.toLower).countP (fun t => containsStr t content.toLower) : ℚ)) /
    (((pySplitWs query.toLower).length : ℚ))

/-- One pass of the result loop of `search_with_relevance` (lines 182-225):
normalise the score, blend in the term-overlap score when the content is
non-empty, and keep the document when the blended score reaches `min_score`.
`none` means the result was skipped: no score, below threshold, or the
`ZeroDivisionError` from an empty term list, which the inner `except`
turns into `continue`. -/
def processResult (query : String) (minScore : ℚ) (result : PyDoc) : Option Info :=
  match getScoreContent result with
  | (none, _) => none
  | (some score, content?) =>
    let content := content?.getD ""
    if content ≠ "" then
      if (pySplitWs query.toLower).length = 0 then
        none
      else
        if (pyNormalize score + termScoreOf query content) / 2 ≥ minScore then
          some (setKey
            (extract_document_info result (some ((pyNormalize score + termScoreOf query content) / 2)))
            "content" (.fstr content))
        else none
    else
      if pyNormalize score ≥ minScore then
        some (extract_document_info result (some (pyNormalize score)))
      else none

/-- Sort key `x.get("relevance_score", 0)` (line 228). -/
def relScore (d : Info) : ℚ :=
  match lookupKey d "relevance_score" with
  | some (.fnum q) => q
  | _ => 0

/-- Stable insertion of a document into a list sorted by non-increasing
relevance score: the element goes after every element whose key is `≥` its
own, which is exactly where Python's stable `sort(..., reverse=True)`
leaves it. -/
def insertDesc (x : Info) : List Info → List Info
  | [] => [x]
  | y :: ys => if relScore y ≥ relScore x then y :: insertDesc x ys else x :: y :: ys

/-- `scored_results.sort(key=..., reverse=True)`: a stable non-increasing
sort by `relScore`. -/
def sortDesc (l : List Info) : List Info :=
  l.foldl (fun acc x => insertDesc x acc) []

/-- `DocumentationAgent.search_with_relevance(query, min_score)`
(lines 169-240) applied to the list of raw results the vector database
returned: score, filter and sort. The outer `except` (search itself
raising) is handled at the `query` level, where the oracle can mark the
search as failed. -/
def search_with_relevance (query : String) (minScore : ℚ) (results : List PyDoc) : List Info :=
  sortDesc (results.filterMap (processResult query minScore))

/-- Outcome of an external call: the value it returned, or the message of the
exception it raised. -/
inductive Outcome (α : Type) where
  | ok (a : α)
  | exc (msg : String)
  deriving DecidableEq, Repr

/-- A chunk of the assistant's streamed response, as `query` discriminates it
(lines 281-287): a `str`, a dict that may or may not have a `"content"` key,
or an object that may or may not have a `content` attribute. -/
inductive Chunk where
  | cstr (s : String)
  | cdict (content : Option String)
  | cobj (content : Option String)
  deriving DecidableEq, Repr

/-- The text `query` appends for one chunk; `none` when the chunk matches no
branch and is skipped. -/
def chunkText : Chunk → Option String
  | .cstr s => some s
  | .cdict c => c
  | .cobj c => c

/-- The oracle environment of one `DocumentationAgent.query` call: whether
`self.knowledge` / `self.assistant` exist, the question, what
`vector_db.search` would produce (or the exception it raised), and what
`assistant.run` would stream (or the exception it raised). -/
structure QueryEnv where
  initialized : Bool
  question : String
  searchExc : Option String
  searchResults : List PyDoc
  assistantRun : Outcome (List Chunk)
  deriving DecidableEq, Repr

/-- The dict `DocumentationAgent.query` returns: either the success dict of
lines 295-303 (response text, relevant documents, and the
`source_count` / `top_score` metadata) or the error dict of lines 307-310. -/
inductive QueryResult where
  | success (response : String) (docs : List Info) (sourceCount : Nat) (topScore : ℚ)
  | error (message : String)
  deriving DecidableEq, Repr

/-- The `"status"` field of a `query` result dict. -/
def queryStatus : QueryResult → String
  | .success _ _ _ _ => "success"
  | .error _ => "error"

/-- `DocumentationAgent.query(question)` (lines 242-310). The attribute check
of line 247 raises `ValueError` when uninitialized; `search_with_relevance`
swallows its own exceptions and returns `[]` (lines 238-240); the prompt
built from the scored results only feeds the assistant oracle, so it does
not appear in the result; any exception is caught by the outer `except`,
which returns the error dict. -/
def pyQuery (env : QueryEnv) : QueryResult :=
  match env.initialized with
  | false =>
    .error ("Failed to process documentation query: " ++
      "Assistant or knowledge base not properly initialized")
  | true =>
    let searchResults :=
      match env.searchExc with
      | some _ => []
      | none => search_with_relevance env.question (1/2) env.searchResults
    match env.assistantRun with
    | .exc m => .error ("Failed to process documentation query: " ++ m)
    | .ok chunks =>
      let finalResponse := String.join (chunks.filterMap chunkText)
      .success finalResponse searchResults searchResults.length
        (match searchResults with
         | [] => 0
         | d :: _ => relScore d)

/-- Does the Python body of `query` raise on this environment? The two raise
sites the model keeps are the line-247 `ValueError` and `assistant.run`;
`vector_db.search` failures are swallowed inside `search_with_relevance`. -/
def queryRaises (env : QueryEnv) : Bool :=
  env.initialized = false ||
    match env.assistantRun with
    | .exc _ => true
    | .ok _ => false

/-! ## `knowledge_base_app/app/utils/document_processor.py` -/

/-- `DocumentProcessor.ingest_pdfs(path)` (document_processor.py lines
45-55): `mkdir` plus `pdf_knowledge.load` either succeed or raise, which the
oracle reports; the function returns the `(status, message)` pair of the
dict built in each branch. -/
def ingest_pdfs (path : String) (effects : Outcome Unit) : String × String :=
  match effects with
  | .ok _ => ("success", "PDFs ingested from " ++ path)
  | .exc m => ("error", m)

/-- `DocumentProcessor.ingest_text(path)` (lines 57-67), same contract. -/
def ingest_text (path : String) (effects : Outcome Unit) : String × String :=
  match effects with
  | .ok _ => ("success", "Text documents ingested from " ++ path)
  | .exc m => ("error", m)

/-! ## `cookbook/agents_101/test_agent.py`

`ProjectManagementWorkflow.run` (lines 208-356): the bounded refinement
loop. One iteration of the `while` body either completes, in which case the
QA agent's streamed chunks decide completion, or raises somewhere, in which
case the inner `except` of lines 330-334 logs, increments the counter and
continues. -/

/-- What the external world does during one iteration of the loop body:
either some call in the body raises, or the body runs to completion and the
QA agent streams the given chunks (`none` models a chunk without a
`content` attribute, which the code reads as the empty string). -/
inductive IterInput where
  | fails
  | ok (chunks : List (Option String))
  deriving DecidableEq, Repr

/-- `content.split("GAP:")[1].strip()` (line 301). -/
def extractGap (content : String) : String :=
  String.mk (pyStrip (((pySplitSub content.data "GAP:".data).get? 1).getD []))

/-- One pass of the chunk loop of lines 295-301: a chunk containing
`NO_GAPS_FOUND` sets `complete`; otherwise a chunk containing `GAP:`
appends the gap text. -/
def qaStep (st : Bool × List String) (ch : Option String) : Bool × List String :=
  let content := ch.getD ""
  if containsStr "NO_GAPS_FOUND" content then (true, st.2)
  else if containsStr "GAP:" content then (st.1, st.2 ++ [extractGap content])
  else st

/-- The chunk loop of lines 295-301 building `completion_status` from the
initial `{"complete": False, "gaps": []}`. -/
def qaScan (chunks : List (Option String)) : Bool × List String :=
  chunks.foldl qaStep (false, [])

/-- What the `while` loop of lines 242-334 produced: the final value of
`iteration`, whether `completion_status["complete"]` was reached, and how
many times the loop body started executing. -/
structure LoopResult where
  iteration : Nat
  complete : Bool
  bodyCount : Nat
  deriving DecidableEq, Repr

/-- The `while iteration < max_iterations` loop, with `remaining` the number
of allowed passes still left (`max_iterations - iteration`). A failing body
is caught by the inner `except`, increments `iteration` and continues; a
completing body scans the QA chunks and breaks before incrementing when
`complete` is set, exactly as lines 295-334. -/
def loopFrom (inputs : Nat → IterInput) : Nat → Nat → LoopResult
  | 0, iteration => ⟨iteration, false, 0⟩
  | r + 1, iteration =>
    match inputs iteration with
    | .fails =>
      let rest := loopFrom inputs r (iteration + 1)
      ⟨rest.iteration, rest.complete, rest.bodyCount + 1⟩
    | .ok chunks =>
      if (qaScan chunks).1 then ⟨iteration, true, 1⟩
      else
        let rest := loopFrom inputs r (iteration + 1)
        ⟨rest.iteration, rest.complete, rest.bodyCount + 1⟩

/-- `ProjectManagementWorkflow.run(max_iterations=...)` (lines 208-356),
restricted to its refinement loop: line 214 computes
`min(kwargs.get("max_iterations", 10), 20)` and the loop starts at
`iteration = 0`. `requested = none` models a call without the keyword
argument. -/
def pmRun (inputs : Nat → IterInput) (requested : Option Int) : LoopResult :=
  let maxIterations : Int := min ((requested.getD 10)) 20
  loopFrom inputs maxIterations.toNat 0

/-! ## `democracy/reset_db.py` -/

/-- The fixed list of tables `reset_database` iterates over
(reset_db.py lines 13-30). -/
def resetTables : List String :=
  ["congress_docs", "congress_records", "congress_reports", "congress_members",
   "congress_committees", "committee_meetings", "congress_hearings",
   "congress_nominations", "congress_knowledge", "constitutional_docs",
   "congress_agent_sessions", "constitutional_summaries",
   "federalism_knowledge", "bill_of_rights_knowledge", "agent_memory",
   "congress_workflows"]

/-- `DROP TABLE IF EXISTS ai.<t> CASCADE` on a database state modelled as the
list of existing table names in the `ai` schema. -/
def dropTable (state : List String) (t : String) : List String :=
  state.filter (fun u => u ≠ t)

/-- `reset_database()` (reset_db.py lines 4-47): issue the drop for every
table in the fixed list, in order, and close the connection. No other SQL
is executed: the function creates nothing. -/
def reset_database (state : List String) : List String :=
  resetTables.foldl dropTable state

/-! ## `democracy/historical_agent.py` -/

/-- One item of a Congress.gov JSON response, with the three identifier
fields `fetch_and_save_congress_data` tries (`item.get(k, '')` defaults to
the empty string). -/
structure CongressItem where
  number : String := ""
  ident : String := ""
  citation : String := ""
  deriving DecidableEq, Repr

/-- `a or b` on Python strings: the first operand when truthy (non-empty). -/
def pyOrStr (a b : String) : String :=
  if a ≠ "" then a else b

/-- `item.get('number', '') or item.get('id', '') or item.get('citation', '')`
(historical_agent.py line 66). -/
def itemId (it : CongressItem) : String :=
  pyOrStr (pyOrStr it.number it.ident) it.citation

/-- An HTTP response: status code, plus the items `data.get(name, [])` would
yield for each key of the decoded JSON body. -/
structure HttpResp where
  status : Nat
  items : String → List CongressItem

/-- The `urls` dict of lines 45-54, with the `CONGRESS_API_KEY` value
interpolated into each f-string. -/
def congressUrls (key : String) : List (String × String) :=
  [("bills", "https://api.congress.gov/v3/bill?api_key=" ++ key ++ "&limit=10&format=json"),
   ("records", "https://api.congress.gov/v3/congressional-record?api_key=" ++ key ++ "&limit=5&format=json"),
   ("reports", "https://api.congress.gov/v3/committee-report?api_key=" ++ key ++ "&limit=5&format=json"),
   ("members", "https://api.congress.gov/v3/member?api_key=" ++ key ++ "&limit=5&format=json"),
   ("committees", "https://api.congress.gov/v3/committee?api_key=" ++ key ++ "&limit=5&format=json"),
   ("meetings", "https://api.congress.gov/v3/committee-meeting?api_key=" ++ key ++ "&limit=5&format=json"),
   ("hearings", "https://api.congress.gov/v3/hearing?api_key=" ++ key ++ "&limit=5&format=json"),
   ("nominations", "https://api.congress.gov/v3/nomination?api_key=" ++ key ++ "&limit=5&format=json")]

/-- The eight data categories of the claim, in the order the code fetches
them. -/
def congressCategories : List String :=
  ["bills", "records", "reports", "members", "committees", "meetings",
   "hearings", "nominations"]

/-- The body of the per-category loop (lines 56-73): on status 200, save one
`<id>.json` file per item whose derived identifier is non-empty; on any
other status, print the error and save nothing. Returns the file names
written into the category's directory. -/
def fetchCategory (resp : HttpResp) (name : String) : List String :=
  if resp.status = 200 then
    (resp.items name).filterMap (fun it =>
      let i := itemId it
      if i ≠ "" then some (i ++ ".json") else none)
  else []

/-- `fetch_and_save_congress_data()` (lines 36-73) against an HTTP oracle
mapping each URL to its response: the list of files written, grouped by
category directory. -/
def fetch_and_save_congress_data (key : String) (http : String → HttpResp) :
    List (String × List String) :=
  (congressUrls key).map (fun p => (p.1, fetchCategory (http p.2) p.1))

/-- The files `fetch_and_save_congress_data` wrote into one category
directory. -/
def savedIn (out : List (String × List String)) (category : String) : List String :=
  (out.filterMap (fun p => if p.1 = category then some p.2 else none)).flatten

/-! ## `democracy/workflow.py` -/

/-- The names bound at module level in `workflow.py`: its imports
(lines 1-19) and its module-level class definitions. `CONGRESS_API_KEY` is
not among them — `workflow.py` imports only `congress_analyst` from
`historical_agent` — so evaluating the f-string of
`get_bill_details` (line 148) raises `NameError`. -/
def workflowGlobalNames : List String :=
  ["Workflow", "RunResponse", "SqlWorkflowStorage", "Iterator", "Any",
   "ClassVar", "logger", "federalism_expert", "civil_rights_expert",
   "constitutional_expert", "init_knowledge_bases", "congress_analyst",
   "Assistant", "Agent", "Path", "datetime", "BaseModel", "json",
   "requests", "re", "CongressWorkflowConfig", "CongressAnalysisWorkflow"]

/-- Does Python's `\s` match here (ASCII part)? -/
def isPyWs (c : Char) : Bool := c.isWhitespace

/-- Try the regex `(?:H\.R\.|S\.)\s*(\d+)` with `re.IGNORECASE` at the start
of `cs`: one of the two alternatives, case-insensitively, then optional
whitespace, then at least one digit. -/
def billMatchAt (cs : List Char) : Bool :=
  let tryRest : List Char → Bool := fun rest =>
    match rest.dropWhile isPyWs with
    | [] => false
    | c :: _ => c.isDigit
  (("h.r.".data.isPrefixOf (cs.map Char.toLower) && tryRest (cs.drop 4)) ||
   ("s.".data.isPrefixOf (cs.map Char.toLower) && tryRest (cs.drop 2)))

/-- `re.search(r'(?:H\.R\.|S\.)\s*(\d+)', bill_query, re.IGNORECASE)`
succeeds somewhere in the query (workflow.py line 142). -/
def hasBillRef (q : String) : Bool :=
  q.data.tails.any billMatchAt

/-- `CongressAnalysisWorkflow.get_bill_details(bill_query)` (workflow.py
lines 138-167) with an explicit module namespace: when the regex matches,
the next statement evaluates the f-string
`f"...api_key={CONGRESS_API_KEY}"`, whose name lookup fails unless
`CONGRESS_API_KEY` is bound in the namespace; the raised `NameError` is
caught by the `except` of line 165, which returns `None`. The HTTP oracle
is only consulted when the name resolves and the response has status 200,
in which case the bill dict is returned (modelled as an opaque payload by
the oracle). -/
def get_bill_details (globalNames : List String)
    (http : String → Option (List (String × String))) (billQuery : String) :
    Option (List (String × String)) :=
  if hasBillRef billQuery then
    if "CONGRESS_API_KEY" ∈ globalNames then
      http billQuery
    else
      none
  else
    none

/-- The query `CongressAnalysisWorkflow.run` hands to the analysis agents
(lines 173-195): `get_bill_details` truthy means the enhancement branch
replaces the query by the enhanced one; `None` is falsy, so the branch is
skipped and the original query is used. (The returned dict of
`get_bill_details` always has eight keys, hence is truthy.) -/
def runQueryUsed (globalNames : List String)
    (http : String → Option (List (String × String)))
    (enhance : String → List (String × String) → String) (query : String) :
    String :=
  match get_bill_details globalNames http query with
  | some bd => enhance query bd
  | none => query

/-! ## Helper lemmas -/

theorem mem_insertDesc {y x : Info} {l : List Info} (h : y ∈ insertDesc x l) :
    y = x ∨ y ∈ l := by
  induction l with
  | nil => simpa [insertDesc] using h
  | cons z zs ih =>
    simp only [insertDesc] at h
    by_cases hz : relScore z ≥ relScore x
    · simp only [if_pos hz, List.mem_cons] at h
      rcases h with h | h
      · exact Or.inr (by simp [h])
      · rcases ih h with h' | h'
        · exact Or.inl h'
        · exact Or.inr (List.mem_cons_of_mem z h')
    · simp only [if_neg hz, List.mem_cons] at h
      rcases h with h | h | h
      · exact Or.inl h
      · exact Or.inr (by simp [h])
      · exact Or.inr (List.mem_cons_of_mem z h)

theorem mem_foldl_insertDesc {y : Info} {l : List Info} {acc : List Info}
    (h : y ∈ l.foldl (fun acc x => insertDesc x acc) acc) :
    y ∈ acc ∨ y ∈ l := by
  induction l generalizing acc with
  | nil => exact Or.inl (by simpa using h)
  | cons z zs ih =>
    simp only [List.foldl_cons] at h
    rcases ih h with h' | h'
    · rcases mem_insertDesc h' with h'' | h''
      · exact Or.inr (by simp [h''])
      · exact Or.inl h''
    · exact Or.inr (List.mem_cons_of_mem z h')

theorem mem_sortDesc {y : Info} {l : List Info} (h : y ∈ sortDesc l) : y ∈ l := by
  have h2 : y ∈ l.foldl (fun acc x => insertDesc x acc) [] := h
  rcases mem_foldl_insertDesc h2 with h' | h'
  · simp at h'
  · exact h'

theorem sorted_insertDesc {x : Info} {l : List Info}
    (h : ((l.map relScore).Sorted (· ≥ ·))) :
    (((insertDesc x l).map relScore).Sorted (· ≥ ·)) := by
  induction l with
  | nil => simp [insertDesc, List.Sorted]
  | cons z zs ih =>
    simp only [List.map_cons, List.sorted_cons] at h
    by_cases hz : relScore z ≥ relScore x
    · simp only [insertDesc, if_pos hz, List.map_cons, List.sorted_cons]
      refine ⟨?_, ih h.2⟩
      intro b hb
      simp only [List.mem_map] at hb
      rcases hb with ⟨d, hd, rfl⟩
      rcases mem_insertDesc hd with rfl | hd'
      · exact hz
      · exact h.1 _ (List.mem_map_of_mem _ hd')
    · push_neg at hz
      simp only [insertDesc, if_neg (not_le.mpr hz), List.map_cons, List.sorted_cons]
      refine ⟨?_, h⟩
      intro b hb
      simp only [List.mem_cons, List.mem_map] at hb
      rcases hb with rfl | ⟨d, hd, rfl⟩
      · exact le_of_lt hz
      · exact le_trans (h.1 _ (List.mem_map_of_mem _ hd)) (le_of_lt hz)

theorem sorted_foldl_insertDesc {l acc : List Info}
    (h : ((acc.map relScore).Sorted (· ≥ ·))) :
    (((l.foldl (fun acc x => insertDesc x acc) acc).map relScore).Sorted (· ≥ ·)) := by
  induction l generalizing acc with
  | nil => simpa using h
  | cons z zs ih => exact ih (sorted_insertDesc h)

theorem sorted_sortDesc (l : List Info) :
    ((sortDesc l).map relScore).Sorted (· ≥ ·) :=
  sorted_foldl_insertDesc (by simp [List.Sorted])

theorem relScore_extract (r : PyDoc) (s : ℚ) :
    relScore (extract_document_info r (some s)) = s := by
  cases r with
  | pstr str =>
    simp only [extract_document_info]
    rcases h1 : findSub str.data contentMarker.data with _ | i
    · simp [relScore, lookupKey]
    · rcases h2 : findCharFrom str.data squote (i + 9) with _ | j <;>
        simp [h2, relScore, lookupKey]
  | pdict d => simp [extract_document_info, relScore, lookupKey]
  | pobj sc c rep => simp [extract_document_info, relScore, lookupKey]

theorem lookupKey_setKey_ne (d : Info) (k k' : String) (v : FVal) (h : k' ≠ k) :
    lookupKey (setKey d k' v) k = lookupKey d k := by
  induction d with
  | nil => simp [setKey, lookupKey, h]
  | cons p rest ih =>
    rcases p with ⟨k'', v''⟩
    by_cases hk : k'' = k'
    · subst hk
      simp [setKey, lookupKey, h]
    · simp [setKey, lookupKey, hk, ih]

theorem relScore_setKey_content (d : Info) (v : FVal) :
    relScore (setKey d "content" v) = relScore d := by
  unfold relScore
  rw [lookupKey_setKey_ne]
  decide

theorem processResult_some {query : String} {minScore : ℚ} {r : PyDoc} {d : Info}
    (h : processResult query minScore r = some d) :
    ∃ s : ℚ, relScore d = s ∧ minScore ≤ s ∧
      ∃ q : ℚ, rawScore r = some q ∧
        (s = pyNormalize q ∨
          ∃ c : String, s = (pyNormalize q + termScoreOf query c) / 2 ∧
            0 ≤ termScoreOf query c ∧ termScoreOf query c ≤ 1) := by
  rcases hg : getScoreContent r with ⟨score?, content?⟩
  rcases score? with _ | q
  · simp [processResult, hg] at h
  · have hraw : rawScore r = some q := by simp [rawScore, hg]
    simp only [processResult, hg] at h
    by_cases hc : content?.getD "" ≠ ""
    · rw [if_pos hc] at h
      by_cases hz : (pySplitWs query.toLower).length = 0
      · rw [if_pos hz] at h
        cases h
      · rw [if_neg hz] at h
        by_cases hm : (pyNormalize q + termScoreOf query (content?.getD "")) / 2 ≥ minScore
        · rw [if_pos hm] at h
          have hd := Option.some_inj.mp h
          subst hd
          have hlen : 0 < ((pySplitWs query.toLower).length : ℚ) := by
            exact_mod_cast Nat.pos_of_ne_zero hz
          refine ⟨_, ?_, hm, q, hraw, Or.inr ⟨content?.getD "", rfl, ?_, ?_⟩⟩
          · rw [relScore_setKey_content, relScore_extract]
          · exact div_nonneg (by positivity) (le_of_lt hlen)
          · rw [termScoreOf, div_le_one hlen]
            exact_mod_cast List.countP_le_length _
        · rw [if_neg hm] at h
          cases h
    · rw [if_neg hc] at h
      by_cases hm : pyNormalize q ≥ minScore
      · rw [if_pos hm] at h
        have hd := Option.some_inj.mp h
        subst hd
        exact ⟨_, relScore_extract r _, hm, q, hraw, Or.inl rfl⟩
      · rw [if_neg hm] at h
        cases h

theorem pyNormalize_le_one {q : ℚ} (h100 : q ≤ 100) : pyNormalize q ≤ 1 := by
  unfold pyNormalize
  split_ifs with h1
  · rw [div_le_one (by norm_num)]
    exact h100
  · linarith

theorem processResult_ge {query : String} {minScore : ℚ} {r : PyDoc} {d : Info}
    (h : processResult query minScore r = some d) : minScore ≤ relScore d := by
  obtain ⟨s, hs, hms, -⟩ := processResult_some h
  rw [hs]
  exact hms

theorem processResult_le_one {query : String} {minScore : ℚ} {r : PyDoc} {d : Info}
    (h : processResult query minScore r = some d)
    (hq : ∀ q : ℚ, rawScore r = some q → q ≤ 100) : relScore d ≤ 1 := by
  obtain ⟨s, hs, -, q, hraw, hform⟩ := processResult_some h
  have hn : pyNormalize q ≤ 1 := pyNormalize_le_one (hq q hraw)
  rw [hs]
  rcases hform with rfl | ⟨c, rfl, ht0, ht1⟩
  · exact hn
  · linarith

theorem lookup_rel_extract (r : PyDoc) (s : ℚ) :
    lookupKey (extract_document_info r (some s)) "relevance_score" =
      some (.fnum s) := by
  cases r with
  | pstr str =>
    simp only [extract_document_info]
    rcases h1 : findSub str.data contentMarker.data with _ | i
    · simp [lookupKey]
    · rcases h2 : findCharFrom str.data squote (i + 9) with _ | j <;>
        simp [h2, lookupKey]
  | pdict d => simp [extract_document_info, lookupKey]
  | pobj sc c rep => simp [extract_document_info, lookupKey]

theorem hasKey_extract (r : PyDoc) (score : Option ℚ) :
    hasKey (extract_document_info r score) "name" = true ∧
    hasKey (extract_document_info r score) "section" = true ∧
    hasKey (extract_document_info r score) "relevance_score" = true := by
  cases r with
  | pstr str =>
    simp only [extract_document_info]
    rcases h1 : findSub str.data contentMarker.data with _ | i
    · simp [hasKey, lookupKey]
    · rcases h2 : findCharFrom str.data squote (i + 9) with _ | j <;>
        simp [h2, hasKey, lookupKey]
  | pdict d => simp [extract_document_info, hasKey, lookupKey]
  | pobj sc c rep => simp [extract_document_info, hasKey, lookupKey]

/-- C10: for every input value `doc` (string, dict, or any other object) and
every optional `score`, `DocumentationAgent.extract_document_info` never
raises (it is a total function here, and no modelled operation can raise)
and always returns a dict containing the keys `"name"`, `"section"` and
`"relevance_score"`; whenever the `score` argument is not `None`, the
returned `"relevance_score"` equals that score. -/
theorem c10_extract_document_info_contract (doc : PyDoc) (score : Option ℚ) :
    hasKey (extract_document_info doc score) "name" = true ∧
    hasKey (extract_document_info doc score) "section" = true ∧
    hasKey (extract_document_info doc score) "relevance_score" = true ∧
    (∀ s : ℚ, score = some s →
      lookupKey (extract_document_info doc score) "relevance_score" =
        some (.fnum s)) := by
  obtain ⟨h1, h2, h3⟩ := hasKey_extract doc score
  refine ⟨h1, h2, h3, ?_⟩
  rintro s rfl
  exact lookup_rel_extract doc s

/-- Witness for C10 at a concrete string input and score `3/4`. -/
theorem c10_witness :
    hasKey (extract_document_info (.pstr "plain text") (some (3/4))) "name" = true ∧
    lookupKey (extract_document_info (.pstr "plain text") (some (3/4)))
      "relevance_score" = some (.fnum (3/4)) := by
  refine ⟨(c10_extract_document_info_contract (.pstr "plain text") (some (3/4))).1, ?_⟩
  exact (c10_extract_document_info_contract (.pstr "plain text") (some (3/4))).2.2.2 (3/4) rfl

theorem not_mem_dropTable (st : List String) (t : String) : t ∉ dropTable st t := by
  simp [dropTable]

theorem not_mem_dropTable_of_not_mem {st : List String} {t : String} (u : String)
    (h : t ∉ st) : t ∉ dropTable st u := by
  intro hmem
  exact h (List.mem_of_mem_filter hmem)

theorem not_mem_foldl_dropTable {t : String} (ts : List String) {st : List String}
    (h : t ∉ st) : t ∉ ts.foldl dropTable st := by
  induction ts generalizing st with
  | nil => simpa using h
  | cons u us ih => exact ih (not_mem_dropTable_of_not_mem u h)

theorem mem_resetTables_not_mem_foldl {t : String} (ts : List String)
    (st : List String) (h : t ∈ ts) : t ∉ ts.foldl dropTable st := by
  induction ts generalizing st with
  | nil => simp at h
  | cons u us ih =>
    simp only [List.foldl_cons]
    rcases List.mem_cons.mp h with rfl | h'
    · exact not_mem_foldl_dropTable us (not_mem_dropTable st t)
    · exact ih (dropTable st u) h'

/-- Counterexample to C6: run `reset_database` on a database that holds
exactly the tables `congress_docs` and `constitutional_docs`. Afterwards
neither table exists — nothing is recreated, contradicting the claim that
after `reset_database` completes the tables "exist again in their empty
recreated form". -/
theorem c6_counterexample :
    "congress_docs" ∉ reset_database ["congress_docs", "constitutional_docs"] ∧
    "constitutional_docs" ∉ reset_database ["congress_docs", "constitutional_docs"] ∧
    reset_database ["congress_docs", "constitutional_docs"] = [] := by
  decide

/-- C6 (amended): on reset, every table in the fixed list of named tables
(including `congress_docs` and `constitutional_docs`) is dropped, and after
`reset_database` completes none of the listed tables exists any more;
recreation is left to a later knowledge-base reload
(`historical_agent.py` with `force_reload=True`), not to `reset_database`. -/
theorem c6_reset_drops_all_listed (state : List String) (t : String)
    (h : t ∈ resetTables) :
    t ∉ reset_database state ∧
    "congress_docs" ∈ resetTables ∧ "constitutional_docs" ∈ resetTables := by
  refine ⟨?_, by decide, by decide⟩
  exact mem_resetTables_not_mem_foldl resetTables state h

/-- Witness for C6 (amended) at `t = "congress_docs"` on a one-table state. -/
theorem c6_witness :
    "congress_docs" ∉ reset_database ["congress_docs"] ∧
    "congress_docs" ∈ resetTables :=
  ⟨(c6_reset_drops_all_listed ["congress_docs"] "congress_docs" (by decide)).1,
   (c6_reset_drops_all_listed ["congress_docs"] "congress_docs" (by decide)).2.1⟩

theorem get_bill_details_none (http : String → Option (List (String × String)))
    (q : String) : get_bill_details workflowGlobalNames http q = none := by
  unfold get_bill_details
  have hni : ("CONGRESS_API_KEY" ∈ workflowGlobalNames) = False := by
    simp only [eq_iff_iff, iff_false]
    decide
  simp [hni]

/-- C9: for every query string, `CongressAnalysisWorkflow.get_bill_details`
returns `None`: the name `CONGRESS_API_KEY` is not bound in `workflow.py`
(first conjunct), so when the bill-number regex matches, evaluating the URL
f-string raises `NameError`, which the `except` catches, returning `None`;
when the regex does not match, `None` is returned directly. Consequently
`run` never takes the bill-details query-enhancement branch: the query it
forwards to the agents is always the original query. -/
theorem c9_bill_details_dead_branch :
    ("CONGRESS_API_KEY" ∉ workflowGlobalNames) ∧
    (∀ (http : String → Option (List (String × String))) (q : String),
      get_bill_details workflowGlobalNames http q = none) ∧
    (∀ (http : String → Option (List (String × String)))
      (enhance : String → List (String × String) → String) (q : String),
      runQueryUsed workflowGlobalNames http enhance q = q) := by
  refine ⟨by decide, get_bill_details_none, ?_⟩
  intro http enhance q
  simp [runQueryUsed, get_bill_details_none]

/-- C5: `DocumentationAgent.query` never raises — `pyQuery` is a total
function into result dicts with no exception constructor — and returns the
`status: "error"` dict with a message exactly when some exception occurred
during processing (the line-247 `ValueError` or a failure of
`assistant.run`); on the non-exceptional path it returns the
`status: "success"` dict. The same contract holds for
`DocumentProcessor.ingest_pdfs` and `ingest_text`: the `(status, message)`
pair is `("error", msg)` when the filesystem/load effects raise `msg`, and
`("success", ...)` otherwise. -/
theorem c5_error_contract :
    (∀ env : QueryEnv,
      (queryRaises env = false → queryStatus (pyQuery env) = "success") ∧
      (queryRaises env = true →
        ∃ m : String, pyQuery env = .error m ∧
          queryStatus (pyQuery env) = "error")) ∧
    (∀ path : String,
      (ingest_pdfs path (.ok ())).1 = "success" ∧
      (ingest_text path (.ok ())).1 = "success") ∧
    (∀ path m : String,
      ingest_pdfs path (.exc m) = ("error", m) ∧
      ingest_text path (.exc m) = ("error", m)) := by
  refine ⟨?_, fun path => ⟨rfl, rfl⟩, fun path m => ⟨rfl, rfl⟩⟩
  intro env
  rcases env with ⟨init, question, searchExc, searchResults, assistantRun⟩
  cases init with
  | false => simp [pyQuery, queryRaises, queryStatus]
  | true =>
    cases assistantRun with
    | ok chunks => simp [pyQuery, queryRaises, queryStatus]
    | exc m => simp [pyQuery, queryRaises, queryStatus]

/-- Witness for C5: a completing environment yields `"success"`, a raising
one yields the error dict. -/
theorem c5_witness :
    queryStatus (pyQuery ⟨true, "q", none, [], .ok [.cstr "hi"]⟩) = "success" ∧
    ∃ m : String, pyQuery ⟨true, "q", none, [], .exc "boom"⟩ = .error m := by
  constructor
  · exact (c5_error_contract.1 ⟨true, "q", none, [], .ok [.cstr "hi"]⟩).1 rfl
  · obtain ⟨m, hm, -⟩ :=
      (c5_error_contract.1 ⟨true, "q", none, [], .exc "boom"⟩).2 rfl
    exact ⟨m, hm⟩

theorem loopFrom_bodyCount_le (inputs : Nat → IterInput) (r iteration : Nat) :
    (loopFrom inputs r iteration).bodyCount ≤ r := by
  induction r generalizing iteration with
  | zero => simp [loopFrom]
  | succ n ih =>
    simp only [loopFrom]
    cases inputs iteration with
    | fails => exact Nat.succ_le_succ (ih (iteration + 1))
    | ok chunks =>
      by_cases hq : (qaScan chunks).1
      · simp [hq]
      · simp only [hq, if_false, Bool.false_eq_true]
        exact Nat.succ_le_succ (ih (iteration + 1))

/-- C2: for every value of the `max_iterations` argument (any integer, or
absent, in which case 10 is used), the refinement loop of
`ProjectManagementWorkflow.run` executes its body at most
`min(requested, 20)` times, hence at most 20 times; in particular the loop
always terminates (`pmRun` is a total function). -/
theorem c2_loop_bounded (inputs : Nat → IterInput) (requested : Option Int) :
    (pmRun inputs requested).bodyCount ≤ (min (requested.getD 10) 20).toNat ∧
    (pmRun inputs requested).bodyCount ≤ 20 := by
  constructor
  · exact loopFrom_bodyCount_le inputs _ 0
  · refine le_trans (loopFrom_bodyCount_le inputs _ 0) ?_
    have h : (min ((requested.getD 10)) 20 : Int) ≤ 20 := min_le_right _ _
    calc (min ((requested.getD 10)) 20 : Int).toNat ≤ (20 : Int).toNat :=
          Int.toNat_le_toNat h
      _ = 20 := rfl

theorem qaStep_fst (st : Bool × List String) (ch : Option String) :
    (qaStep st ch).1 = (st.1 || containsStr "NO_GAPS_FOUND" (ch.getD "")) := by
  unfold qaStep
  by_cases h1 : containsStr "NO_GAPS_FOUND" (ch.getD "")
  · simp [h1]
  · by_cases h2 : containsStr "GAP:" (ch.getD "") <;>
      simp [h1, h2]

theorem qaScan_foldl_fst (chunks : List (Option String)) (st : Bool × List String) :
    (chunks.foldl qaStep st).1 =
      (st.1 || chunks.any (fun ch => containsStr "NO_GAPS_FOUND" (ch.getD ""))) := by
  induction chunks generalizing st with
  | nil => simp
  | cons ch rest ih =>
    simp only [List.foldl_cons, List.any_cons]
    rw [ih, qaStep_fst, Bool.or_assoc]

theorem qaScan_fst (chunks : List (Option String)) :
    (qaScan chunks).1 =
      chunks.any (fun ch => containsStr "NO_GAPS_FOUND" (ch.getD "")) := by
  rw [qaScan, qaScan_foldl_fst]
  simp

/-- C3: in an iteration of `ProjectManagementWorkflow.run` whose body runs to
completion, if any chunk of the QA agent's streamed response contains the
literal string `NO_GAPS_FOUND`, `completion_status` is marked complete and
the loop stops at the end of that iteration without starting another (the
result records this iteration, the complete flag, and a body count of 1);
if no chunk contains the marker, the loop proceeds to the next iteration
with the counter incremented (until the iteration bound is exhausted). -/
theorem c3_marker_controls_loop (inputs : Nat → IterInput) (r iteration : Nat)
    (chunks : List (Option String)) (h : inputs iteration = .ok chunks) :
    ((∃ ch ∈ chunks, containsStr "NO_GAPS_FOUND" (ch.getD "") = true) →
      loopFrom inputs (r + 1) iteration = ⟨iteration, true, 1⟩) ∧
    ((∀ ch ∈ chunks, containsStr "NO_GAPS_FOUND" (ch.getD "") = false) →
      loopFrom inputs (r + 1) iteration =
        ⟨(loopFrom inputs r (iteration + 1)).iteration,
         (loopFrom inputs r (iteration + 1)).complete,
         (loopFrom inputs r (iteration + 1)).bodyCount + 1⟩) := by
  constructor
  · intro hmark
    have hq : (qaScan chunks).1 = true := by
      rw [qaScan_fst, List.any_eq_true]
      obtain ⟨ch, hch, hc⟩ := hmark
      exact ⟨ch, hch, hc⟩
    simp [loopFrom, h, hq]
  · intro hnone
    have hq : (qaScan chunks).1 = false := by
      rw [qaScan_fst, List.any_eq_false]
      intro ch hch
      simp [hnone ch hch]
    simp [loopFrom, h, hq]

/-- Witness for C3: a marker chunk stops the loop after one body execution;
a marker-free chunk lets it continue into the next iteration. -/
theorem c3_witness :
    loopFrom (fun _ => .ok [some "NO_GAPS_FOUND"]) 5 0 = ⟨0, true, 1⟩ ∧
    loopFrom (fun _ => .ok [some "all good"]) 1 0 = ⟨1, false, 1⟩ := by
  constructor
  · exact (c3_marker_controls_loop (fun _ => .ok [some "NO_GAPS_FOUND"]) 4 0
      [some "NO_GAPS_FOUND"] rfl).1 ⟨some "NO_GAPS_FOUND", by decide, by decide⟩
  · have h := (c3_marker_controls_loop (fun _ => .ok [some "all good"]) 0 0
      [some "all good"] rfl).2 (by decide)
    rw [h]
    decide

/-- C4: if the body of a single iteration raises, the exception is caught by
the `except` inside the loop, the iteration counter is still incremented,
and execution continues with the next iteration: the loop result is exactly
the continuation's result with this body execution counted. `run` never
propagates a per-iteration exception to its caller: `loopFrom`/`pmRun` are
total functions whose result type has no exception constructor (and the
outer `try` of `run` catches anything else). -/
theorem c4_exception_continues (inputs : Nat → IterInput) (r iteration : Nat)
    (h : inputs iteration = .fails) :
    loopFrom inputs (r + 1) iteration =
      ⟨(loopFrom inputs r (iteration + 1)).iteration,
       (loopFrom inputs r (iteration + 1)).complete,
       (loopFrom inputs r (iteration + 1)).bodyCount + 1⟩ := by
  simp [loopFrom, h]

/-- Witness for C4: a single failing iteration is absorbed and counted. -/
theorem c4_witness : loopFrom (fun _ => .fails) 1 0 = ⟨1, false, 1⟩ := by
  have h := c4_exception_continues (fun _ => .fails) 0 0 rfl
  rw [h]
  decide

/-- C7: for each of the eight Congress.gov categories,
`fetch_and_save_congress_data` issues a GET whose URL embeds the
`CONGRESS_API_KEY` token; on status 200 every returned item with a
non-empty identifier is written as `<id>.json` into that category's
directory, and on any other status no file is written for that category. -/
theorem c7_fetch_and_save_contract (key : String) (http : String → HttpResp) :
    ((congressUrls key).map Prod.fst = congressCategories) ∧
    (∀ c u, (c, u) ∈ congressUrls key →
      ∃ pre post : String, u = pre ++ key ++ post) ∧
    (∀ c u, (c, u) ∈ congressUrls key →
      savedIn (fetch_and_save_congress_data key http) c =
        if (http u).status = 200 then
          ((http u).items c).filterMap (fun it =>
            if itemId it ≠ "" then some (itemId it ++ ".json") else none)
        else []) := by
  refine ⟨rfl, ?_, ?_⟩
  · intro c u h
    simp only [congressUrls, List.mem_cons, List.not_mem_nil, or_false,
      Prod.mk.injEq] at h
    rcases h with h | h | h | h | h | h | h | h <;>
      · obtain ⟨rfl, rfl⟩ := h
        exact ⟨_, _, rfl⟩
  · intro c u h
    simp only [congressUrls, List.mem_cons, List.not_mem_nil, or_false,
      Prod.mk.injEq] at h
    rcases h with h | h | h | h | h | h | h | h <;>
      · obtain ⟨rfl, rfl⟩ := h
        simp [savedIn, fetch_and_save_congress_data, congressUrls, fetchCategory]

/-- A concrete HTTP oracle for the C7 witness: the bills endpoint answers
200 with two items (one with an identifier, one without), everything else
answers 404. -/
def demoCongressHttp : String → HttpResp := fun u =>
  if u = "https://api.congress.gov/v3/bill?api_key=KEY&limit=10&format=json" then
    ⟨200, fun n => if n = "bills" then [⟨"123", "", ""⟩, ⟨"", "", ""⟩] else []⟩
  else ⟨404, fun _ => []⟩

/-- Witness for C7: with the demo oracle, the bills directory receives
exactly `123.json` and the records directory receives nothing. -/
theorem c7_witness :
    savedIn (fetch_and_save_congress_data "KEY" demoCongressHttp) "bills" =
      ["123.json"] ∧
    savedIn (fetch_and_save_congress_data "KEY" demoCongressHttp) "records" = [] := by
  have h := (c7_fetch_and_save_contract "KEY" demoCongressHttp).2.2
  constructor
  · rw [h "bills" ("https://api.congress.gov/v3/bill?api_key=" ++ "KEY" ++
      "&limit=10&format=json") (by simp [congressUrls])]
    decide
  · rw [h "records" ("https://api.congress.gov/v3/congressional-record?api_key=" ++
      "KEY" ++ "&limit=5&format=json") (by simp [congressUrls])]
    decide

/-- Counterexample to C1: a raw vector score of 200 (with no content) is
normalised to `200/100 = 2` — the division by 100 happens only once — and
passes the default `min_score = 0.5` filter, so the returned document
carries the relevance score 2, outside `[0, 1]`. Likewise a raw score of
`-1` with a negative `min_score` is attached unchanged, below 0. -/
theorem c1_counterexample :
    (∃ d ∈ search_with_relevance "q" (1/2) [PyDoc.pobj (some 200) none "Doc"],
      ¬ relScore d ≤ 1) ∧
    (∃ d ∈ search_with_relevance "q" (-5) [PyDoc.pobj (some (-1)) none "Doc"],
      ¬ (0 : ℚ) ≤ relScore d) := by
  have h1 : search_with_relevance "q" (1/2) [PyDoc.pobj (some 200) none "Doc"] =
      [extract_document_info (PyDoc.pobj (some 200) none "Doc") (some 2)] := by
    norm_num [search_with_relevance, processResult, getScoreContent, sortDesc,
      insertDesc, List.filterMap_cons, List.filterMap_nil, List.foldl, pyNormalize]
  have h2 : search_with_relevance "q" (-5) [PyDoc.pobj (some (-1)) none "Doc"] =
      [extract_document_info (PyDoc.pobj (some (-1)) none "Doc") (some (-1))] := by
    norm_num [search_with_relevance, processResult, getScoreContent, sortDesc,
      insertDesc, List.filterMap_cons, List.filterMap_nil, List.foldl, pyNormalize]
  constructor
  · refine ⟨extract_document_info (PyDoc.pobj (some 200) none "Doc") (some 2),
      by rw [h1]; simp, ?_⟩
    rw [relScore_extract]
    norm_num
  · refine ⟨extract_document_info (PyDoc.pobj (some (-1)) none "Doc") (some (-1)),
      by rw [h2]; simp, ?_⟩
    rw [relScore_extract]
    norm_num

/-- C1 (amended): the blended relevance score attached to a returned
document lies in `[0, 1]` provided `min_score` is nonnegative (the default
0.5 is) and every raw vector-similarity score is at most 100; without those
restrictions the score can leave the interval on either side, as the
counterexample shows. -/
theorem c1_amended_blend_in_unit_interval (query : String) (minScore : ℚ)
    (results : List PyDoc) (hmin : 0 ≤ minScore)
    (hraw : ∀ r ∈ results, ∀ q : ℚ, rawScore r = some q → q ≤ 100) :
    ∀ d ∈ search_with_relevance query minScore results,
      0 ≤ relScore d ∧ relScore d ≤ 1 := by
  intro d hd
  have hd' := mem_sortDesc hd
  rw [List.mem_filterMap] at hd'
  obtain ⟨r, hr, hp⟩ := hd'
  exact ⟨le_trans hmin (processResult_ge hp),
    processResult_le_one hp (fun q hq => hraw r hr q hq)⟩

/-- Witness for C1 (amended): a raw score of 50 at the default threshold is
normalised to `1/2` and lands inside `[0, 1]`. -/
theorem c1_witness :
    0 ≤ relScore (extract_document_info (PyDoc.pobj (some 50) none "Doc")
      (some (1/2))) ∧
    relScore (extract_document_info (PyDoc.pobj (some 50) none "Doc")
      (some (1/2))) ≤ 1 := by
  have hs : search_with_relevance "q" (1/2) [PyDoc.pobj (some 50) none "Doc"] =
      [extract_document_info (PyDoc.pobj (some 50) none "Doc") (some (1/2))] := by
    norm_num [search_with_relevance, processResult, getScoreContent, sortDesc,
      insertDesc, List.filterMap_cons, List.filterMap_nil, List.foldl, pyNormalize]
  refine c1_amended_blend_in_unit_interval "q" (1/2)
    [PyDoc.pobj (some 50) none "Doc"] (by norm_num) ?_ _ (by rw [hs]; simp)
  intro r hr q hq
  rcases List.mem_singleton.mp hr
  simp only [rawScore, getScoreContent] at hq
  rcases Option.some_inj.mp hq
  norm_num

theorem head_max_of_sorted {d0 : Info} {rest : List Info}
    (h : (((d0 :: rest).map relScore).Sorted (· ≥ ·))) :
    ∀ d ∈ d0 :: rest, relScore d ≤ relScore d0 := by
  intro d hd
  rcases List.mem_cons.mp hd with rfl | hd'
  · exact le_refl _
  · simp only [List.map_cons, List.sorted_cons] at h
    exact h.1 _ (List.mem_map_of_mem _ hd')

/-- C8: the list returned by `search_with_relevance` contains only documents
whose `relevance_score` is at least `min_score`, and it is sorted in
non-increasing order of `relevance_score`; consequently, in a successful
`DocumentationAgent.query` result, `metadata.top_score` is the maximum
`relevance_score` among `relevant_documents` (0 when the list is empty) and
`metadata.source_count` is its length. -/
theorem c8_relevance_filter_sort_metadata :
    (∀ (query : String) (minScore : ℚ) (results : List PyDoc),
      (∀ d ∈ search_with_relevance query minScore results,
        minScore ≤ relScore d) ∧
      (((search_with_relevance query minScore results).map relScore).Sorted
        (· ≥ ·))) ∧
    (∀ (env : QueryEnv) (resp : String) (docs : List Info) (cnt : Nat) (top : ℚ),
      pyQuery env = .success resp docs cnt top →
        cnt = docs.length ∧
        (docs = [] → top = 0) ∧
        (∀ d ∈ docs, relScore d ≤ top) ∧
        (docs ≠ [] → ∃ d ∈ docs, relScore d = top)) := by
  have hfilter : ∀ (query : String) (minScore : ℚ) (results : List PyDoc),
      ∀ d ∈ search_with_relevance query minScore results,
        minScore ≤ relScore d := by
    intro query minScore results d hd
    have hd2 := mem_sortDesc hd
    rw [List.mem_filterMap] at hd2
    obtain ⟨r, -, hp⟩ := hd2
    exact processResult_ge hp
  have hsorted : ∀ (query : String) (minScore : ℚ) (results : List PyDoc),
      ((search_with_relevance query minScore results).map relScore).Sorted
        (· ≥ ·) := fun _ _ _ => sorted_sortDesc _
  refine ⟨fun query minScore results => ⟨hfilter query minScore results,
    hsorted query minScore results⟩, ?_⟩
  intro env resp docs cnt top h
  rcases env with ⟨init, question, searchExc, searchResults, assistantRun⟩
  cases init with
  | false => simp [pyQuery] at h
  | true =>
    cases assistantRun with
    | exc m => simp [pyQuery] at h
    | ok chunks =>
      cases searchExc with
      | some e =>
        simp only [pyQuery, QueryResult.success.injEq] at h
        obtain ⟨-, hdocs, hcnt, htop⟩ := h
        subst hdocs
        refine ⟨hcnt.symm, fun _ => htop.symm, by simp, fun hne => absurd rfl hne⟩
      | none =>
        simp only [pyQuery, QueryResult.success.injEq] at h
        obtain ⟨-, hdocs, hcnt, htop⟩ := h
        rw [hdocs] at hcnt htop
        have hds := hsorted question (1/2) searchResults
        rw [hdocs] at hds
        refine ⟨hcnt.symm, ?_, ?_, ?_⟩
        · rintro rfl
          simpa using htop.symm
        · intro d hd
          cases docs with
          | nil => simp at hd
          | cons d0 rest =>
            rw [← htop]
            exact head_max_of_sorted hds d hd
        · intro hne
          cases docs with
          | nil => exact absurd rfl hne
          | cons d0 rest => exact ⟨d0, by simp, htop⟩

/-- Witness for C8: on a one-result environment the returned metadata counts
one document whose score `1/2` meets the threshold and is the maximum. -/
theorem c8_witness :
    ((1 : ℚ)/2 ≤ relScore (extract_document_info
      (PyDoc.pobj (some 50) none "Doc") (some (1/2)))) ∧
    (1 = [extract_document_info (PyDoc.pobj (some 50) none "Doc")
      (some (1/2))].length) := by
  have hs : search_with_relevance "q" (1/2) [PyDoc.pobj (some 50) none "Doc"] =
      [extract_document_info (PyDoc.pobj (some 50) none "Doc") (some (1/2))] := by
    norm_num [search_with_relevance, processResult, getScoreContent, sortDesc,
      insertDesc, List.filterMap_cons, List.filterMap_nil, List.foldl, pyNormalize]
  constructor
  · exact (c8_relevance_filter_sort_metadata.1 "q" (1/2)
      [PyDoc.pobj (some 50) none "Doc"]).1 _ (by rw [hs]; simp)
  · have hq : pyQuery ⟨true, "q", none, [PyDoc.pobj (some 50) none "Doc"],
        .ok []⟩ = .success ""
        [extract_document_info (PyDoc.pobj (some 50) none "Doc") (some (1/2))] 1
        (relScore (extract_document_info (PyDoc.pobj (some 50) none "Doc")
          (some (1/2)))) := by
      simp only [pyQuery]
      rw [hs]
      rfl
    exact (c8_relevance_filter_sort_metadata.2 _ _ _ _ _ hq).1
